import Mathlib

/- Verification of the Clarity model-import pipeline.

A shallow embedding of the import / verification / reset logic from
`web-ui/src/stores/model-store.ts`, `web-ui/src/lib/storage.ts` and the
validation constants module (KNOWN_MODEL_HASHES, MODEL_VALIDATION,
UI_MESSAGES).

Modelling choices:
* Bytes are `Nat`s, a file's contents a `List Nat`; `file.slice(a, a + n)`
  becomes `(content.drop a).take n` (Blob.slice clamps at the end of the
  blob exactly as `take`/`drop` do).
* The IndexedDB chunk object store keeps records sorted by numeric key, so
  it is represented as an association list sorted by ascending offset;
  `db.put` is ordered insert-or-replace and `db.getAll` returns the values
  in key order.
* The SHA-256 digest and the fallible storage operations are parameters of
  an `Env`: `hashFn` is an uninterpreted digest function, and
  `clearThrows` / `putThrows` / `hashThrows` inject the exceptions the
  corresponding awaited IndexedDB / WebCrypto calls may raise.
* Reactive `setModelStatus` updates are explicit record updates; the values
  successively assigned to `importProgress` are collected in a trace
  (progress is rational arithmetic, as the JS numbers involved are exact).
* `String.endsWith` is modelled on the character lists of the strings. -/

namespace Clarity

/-- Values of the `verificationStatus` field of `ModelStatus`. -/
inductive VStatus where
  | verified
  | unverified
  | failed
deriving DecidableEq

/-- The zustand `ModelStatus` record from `model-store.ts`; optional TS
fields are `Option`s. -/
structure ModelStatus where
  isImported : Bool
  isLoaded : Bool
  fileName : Option String
  fileSize : Option Nat
  sha256 : Option String
  importProgress : ℚ
  error : Option String
  isVerified : Option Bool
  verificationStatus : Option VStatus
deriving DecidableEq

/-- Metadata value of one `KNOWN_MODEL_HASHES` entry. -/
structure KnownModel where
  name : String
  size : String
  source : String
deriving DecidableEq

/-- The verification registry from the constants module: one development
entry keyed by its sha256 digest. -/
def KNOWN_MODEL_HASHES (digest : String) : Option KnownModel :=
  if digest = "e3b0c44298fc1c149afbf4c8996fb92427ae41e4649b934ca495991b7852b855" then
    some ⟨"test-model.gguf", "~1KB", "Test Model"⟩
  else
    none

def MODEL_VALIDATION.MIN_SIZE : Nat := 100 * 1024 * 1024

def MODEL_VALIDATION.MAX_SIZE : Nat := 15 * 1024 * 1024 * 1024

def MODEL_VALIDATION.EXPECTED_EXTENSION : String := ".gguf"

def UI_MESSAGES.INVALID_FILE_TYPE : String :=
  "Please select a valid GGUF model file (.gguf extension)"

def UI_MESSAGES.FILE_TOO_LARGE : String :=
  "File size too large. Please select a smaller model file."

def UI_MESSAGES.STORAGE_QUOTA_EXCEEDED : String :=
  "Not enough storage space. Please free up space and try again."

def FILE_TOO_SMALL_MESSAGE : String :=
  "File too small. Please select a valid model file."

/-- `s.endsWith post`, computed on the underlying character lists. -/
def strEndsWith (s post : String) : Bool :=
  post.data.isSuffixOf s.data

/-- An input `File`: a name and its bytes (`size` is the byte count). -/
structure SFile where
  name : String
  content : List Nat
deriving DecidableEq

def SFile.size (f : SFile) : Nat := f.content.length

/-- The `chunkStore` IndexedDB table: records sorted by ascending numeric
key (byte offset), each holding the chunk's bytes. -/
abbrev ChunkStore := List (Nat × List Nat)

/-- `db.put(CHUNK_STORE_NAME, bytes, off)`: insert-or-replace at key
`off`, keeping the table sorted by key. -/
def putChunk : ChunkStore → Nat → List Nat → ChunkStore
  | [], off, bytes => [(off, bytes)]
  | (k, v) :: rest, off, bytes =>
    if off < k then (off, bytes) :: (k, v) :: rest
    else if off = k then (off, bytes) :: rest
    else (k, v) :: putChunk rest off bytes

/-- `db.getAll(CHUNK_STORE_NAME)`: all stored chunk values in ascending
key order. -/
def getAll (store : ChunkStore) : List (List Nat) :=
  store.map Prod.snd

/-- Behaviour of the platform quota API as seen by `getStorageQuota`:
`navigator.storage.estimate` may be missing, may reject, or may report
optional usage/quota figures. -/
inductive QuotaAPI where
  | unavailable
  | throws
  | reports (usage quota : Option Nat)

/-- `modelStorage.getStorageQuota`: calls `navigator.storage.estimate()`
when available, else returns `{usage: 0, quota: 0}`; a rejection
propagates to the caller. -/
def getStorageQuota : QuotaAPI → Except Unit (Option Nat × Option Nat)
  | .unavailable => .ok (some 0, some 0)
  | .throws => .error ()
  | .reports u q => .ok (u, q)

/-- Return value of `checkStorageQuota`. -/
structure QuotaRes where
  hasQuota : Bool
  usage : Nat
  quota : Nat
deriving DecidableEq

/-- `checkStorageQuota` from `model-store.ts`: requires at least 2 GiB of
free space beyond current usage; any error yields `{false, 0, 0}`. -/
def checkStorageQuota (api : QuotaAPI) : QuotaRes :=
  match getStorageQuota api with
  | .error _ => ⟨false, 0, 0⟩
  | .ok (u, q) =>
    ⟨decide (q.getD 0 > u.getD 0 + 2 * 1024 * 1024 * 1024), u.getD 0, q.getD 0⟩

/-- One call on the chunk object store, as issued by the import pipeline. -/
inductive StoreOp where
  | clear
  | put (offset : Nat) (bytes : List Nat)
  | getAllChunks
deriving DecidableEq

/-- Ambient behaviour of the fallible platform operations during one import
session. -/
structure Env where
  quotaAPI : QuotaAPI
  clearThrows : Option String
  putThrows : Nat → Option String
  hashThrows : Option String
  hashFn : List Nat → String

/-- Terminal result of `importModel` (the promise resolves or rejects). -/
inductive Outcome where
  | completed
  | failed (msg : String)
deriving DecidableEq

def CHUNK_SIZE : Nat := 16 * 1024 * 1024

/-- Result of the chunk-writing loop (step 3 of `importModel`). -/
structure WriteRes where
  store : ChunkStore
  status : ModelStatus
  trace : List ℚ
  calls : List StoreOp
  err : Option String

/-- The `while (offset < file.size)` loop of `importModel`: slice the next
window, `storeModelChunk(chunk, offset)`, advance `offset` by the slice
length, and report `(offset / file.size) * 80` as progress.  A throwing
`put` aborts the loop with the thrown message. -/
def writeChunks (env : Env) (data : List Nat) (offset : Nat) (st : ModelStatus)
    (store : ChunkStore) : WriteRes :=
  if h : offset < data.length then
    match env.putThrows offset with
    | some msg =>
      ⟨store, st, [], [.put offset ((data.drop offset).take CHUNK_SIZE)], some msg⟩
    | none =>
      let chunk := (data.drop offset).take CHUNK_SIZE
      let r := writeChunks env data (offset + chunk.length)
        { st with importProgress := ((offset + chunk.length : Nat) : ℚ) / (data.length : ℚ) * 80 }
        (putChunk store offset chunk)
      ⟨r.store, r.status,
       (((offset + chunk.length : Nat) : ℚ) / (data.length : ℚ) * 80) :: r.trace,
       .put offset chunk :: r.calls, r.err⟩
  else ⟨store, st, [], [], none⟩
termination_by data.length - offset
decreasing_by
  simp [List.length_take, List.length_drop, CHUNK_SIZE]
  omega

/-- Full result of one `importModel` call: final reactive status, final
chunk table, the successive `importProgress` values, the chunk-store calls
issued, and the outcome. -/
structure ImportRes where
  status : ModelStatus
  store : ChunkStore
  trace : List ℚ
  calls : List StoreOp
  outcome : Outcome

/-- The `catch` block of `importModel`: merge the error message,
`importProgress: 0` and `verificationStatus: 'failed'` into the current
status, then rethrow. -/
def failWith (st : ModelStatus) (store : ChunkStore) (trace : List ℚ)
    (calls : List StoreOp) (msg : String) : ImportRes :=
  ⟨{ st with error := some msg, importProgress := 0, verificationStatus := some .failed },
   store, trace ++ [0], calls, .failed msg⟩

/-- `importModel` from `model-store.ts`, acting on the current status and
chunk table. -/
def importModel (env : Env) (st : ModelStatus) (store : ChunkStore)
    (file : SFile) : ImportRes :=
  let st0 : ModelStatus :=
    { st with importProgress := 0, error := none, verificationStatus := some .unverified }
  if ¬ strEndsWith file.name MODEL_VALIDATION.EXPECTED_EXTENSION then
    failWith st0 store [0] [] UI_MESSAGES.INVALID_FILE_TYPE
  else if file.size < MODEL_VALIDATION.MIN_SIZE then
    failWith st0 store [0] [] FILE_TOO_SMALL_MESSAGE
  else if MODEL_VALIDATION.MAX_SIZE < file.size then
    failWith st0 store [0] [] UI_MESSAGES.FILE_TOO_LARGE
  else
    let q := checkStorageQuota env.quotaAPI
    if ¬ q.hasQuota then
      failWith st0 store [0] []
        (UI_MESSAGES.STORAGE_QUOTA_EXCEEDED ++ " (Available: " ++
          toString (Int.fdiv ((q.quota : Int) - (q.usage : Int)) (1024 * 1024 * 1024)) ++ "GB)")
    else
      match env.clearThrows with
      | some msg => failWith st0 store [0] [.clear] msg
      | none =>
        let w := writeChunks env file.content 0 st0 []
        match w.err with
        | some msg => failWith w.status w.store ([0] ++ w.trace) (.clear :: w.calls) msg
        | none =>
          match env.hashThrows with
          | some msg =>
            failWith w.status w.store ([0] ++ w.trace)
              (.clear :: w.calls ++ [.getAllChunks]) msg
          | none =>
            let sha := env.hashFn (getAll w.store).flatten
            ⟨{ w.status with isImported := true, isLoaded := true,
                             fileName := some file.name, fileSize := some file.size,
                             sha256 := some sha, importProgress := 100, error := none,
                             verificationStatus :=
                               some (if (KNOWN_MODEL_HASHES sha).isSome then
                                       VStatus.verified
                                     else VStatus.unverified) },
             w.store, [0] ++ w.trace ++ [90, 100],
             .clear :: w.calls ++ [.getAllChunks], .completed⟩

/-- The nested metadata record of the (never written) `modelStore` table. -/
structure ModelMetadata where
  sha256 : String
  fileName : String
deriving DecidableEq

/-- One row of the single-row `modelStore` table (`storeModel`'s value). -/
structure StoredModel where
  file : List Nat
  metadata : ModelMetadata
deriving DecidableEq

/-- `modelStorage.getModel()`: reads the `'model'` row; the underlying
transaction may reject. -/
def getModel (throwsErr : Bool) (tbl : Option StoredModel) :
    Except String (Option StoredModel) :=
  if throwsErr then .error "read failed" else .ok tbl

/-- `modelStorage.deleteModel()`: deletes the `'model'` row; the
underlying transaction may reject, in which case the row survives. -/
def deleteModel (throwsErr : Bool) (tbl : Option StoredModel) :
    Except String (Option StoredModel) :=
  if throwsErr then .error "delete failed" else .ok none

/-- `verifyModel` from `model-store.ts`. -/
def verifyModel (getModelResult : Except String (Option StoredModel))
    (st : ModelStatus) : Bool :=
  if st.isImported = false then false
  else
    match getModelResult with
    | .error _ => false
    | .ok none => false
    | .ok (some m) => decide (some m.metadata.sha256 = st.sha256)

/-- The initial `modelStatus` value of the zustand store (lines 31-36). -/
def initialModelStatus : ModelStatus :=
  { isImported := false, isLoaded := false, fileName := none, fileSize := none,
    sha256 := none, importProgress := 0, error := none, isVerified := none,
    verificationStatus := some .unverified }

/-- The status object `resetModel` installs (lines 156-167); fields it
lists as `undefined` are `none`, and `isVerified`, absent from the object,
is also `undefined` because the whole record is replaced. -/
def resetStatusObj : ModelStatus :=
  { isImported := false, isLoaded := false, fileName := none, fileSize := none,
    sha256 := none, importProgress := 0, error := none, isVerified := none,
    verificationStatus := some .unverified }

/-- Whole persistent application state touched by the store: the reactive
status, the chunk table and the single-row model table. -/
structure AppState where
  modelStatus : ModelStatus
  chunkTable : ChunkStore
  modelTable : Option StoredModel
deriving DecidableEq

/-- `resetModel`: best-effort `deleteModel` (a rejection is swallowed by
the empty catch), then replace the status record with the blank one.  The
chunk table is not touched. -/
def resetModel (delThrows : Bool) (s : AppState) : AppState :=
  let tbl : Option StoredModel :=
    match deleteModel delThrows s.modelTable with
    | .ok t => t
    | .error _ => s.modelTable
  { s with modelTable := tbl, modelStatus := resetStatusObj }

/-- `importModel` as a transition on the whole application state; the
model table is untouched because the pipeline never calls `storeModel`. -/
def appImport (env : Env) (s : AppState) (file : SFile) :
    AppState × List ℚ × Outcome :=
  let r := importModel env s.modelStatus s.chunkTable file
  (⟨r.status, r.store, s.modelTable⟩, r.trace, r.outcome)

/-- `verifyModel` as a read of the whole application state. -/
def appVerify (getThrows : Bool) (s : AppState) : Bool :=
  verifyModel (getModel getThrows s.modelTable) s.modelStatus

/-- States reachable from a fresh application instance through the store's
operations (`setModelStatus` may install any status object). -/
inductive Reach : AppState → Prop where
  | init : Reach ⟨initialModelStatus, [], none⟩
  | importStep (env : Env) (file : SFile) {s : AppState} :
      Reach s → Reach (appImport env s file).1
  | resetStep (b : Bool) {s : AppState} : Reach s → Reach (resetModel b s)
  | setStatus (st : ModelStatus) {s : AppState} :
      Reach s → Reach { s with modelStatus := st }

/-- The chunk decomposition the write loop produces: the `(offset, slice)`
pairs for successive 16 MiB windows of `data` starting at `offset`. -/
def chunkSeq (data : List Nat) (offset : Nat) : List (Nat × List Nat) :=
  if _h : offset < data.length then
    (offset, (data.drop offset).take CHUNK_SIZE) ::
      chunkSeq data (offset + ((data.drop offset).take CHUNK_SIZE).length)
  else []
termination_by data.length - offset
decreasing_by
  simp [List.length_take, List.length_drop, CHUNK_SIZE]
  omega

/-- The progress value reported after writing chunk `p` of a file of
`len` bytes: `(bytesWrittenSoFar / totalBytes) * 80`. -/
def progOf (len : Nat) (p : Nat × List Nat) : ℚ :=
  ((p.1 + p.2.length : Nat) : ℚ) / (len : ℚ) * 80

/-- The `put` calls among a list of chunk-store operations. -/
def putsOf : List StoreOp → List (Nat × List Nat)
  | [] => []
  | .put o b :: rest => (o, b) :: putsOf rest
  | .clear :: rest => putsOf rest
  | .getAllChunks :: rest => putsOf rest

/-- An environment in which every platform operation succeeds: plenty of
quota, no storage or hashing exceptions, and a digest function that is
constantly the registry's development digest. -/
def okEnv : Env :=
  { quotaAPI := .reports (some 0) (some (50 * 1024 * 1024 * 1024)),
    clearThrows := none, putThrows := fun _ => none, hashThrows := none,
    hashFn := fun _ =>
      "e3b0c44298fc1c149afbf4c8996fb92427ae41e4649b934ca495991b7852b855" }

/-- `okEnv`, except that the digest computation throws. -/
def hashFailEnv : Env := { okEnv with hashThrows := some "hash failure" }

/-- A valid input file of exactly the minimum accepted size (100 MiB). -/
def bigFile : SFile := ⟨"a.gguf", List.replicate (100 * 1024 * 1024) 0⟩

/-- A file with a disallowed extension. -/
def badExtFile : SFile := ⟨"model.txt", []⟩

/-- A 32 MiB `.gguf` file (below the 100 MiB minimum). -/
def smallFile : SFile := ⟨"model.gguf", List.replicate (32 * 1024 * 1024) 0⟩

/-- The status left behind by a previously successful, verified import. -/
def priorStatus : ModelStatus :=
  { isImported := true, isLoaded := true, fileName := some "old.gguf",
    fileSize := some (200 * 1024 * 1024), sha256 := some "oldsha",
    importProgress := 100, error := none, isVerified := none,
    verificationStatus := some .verified }

end Clarity

namespace Clarity

/-! ### Lemmas about the chunk decomposition -/

lemma chunkSeq_of_not_lt {data : List Nat} {offset : Nat} (h : ¬ offset < data.length) :
    chunkSeq data offset = [] := by
  rw [chunkSeq]
  simp [h]

lemma chunkSeq_of_lt {data : List Nat} {offset : Nat} (h : offset < data.length) :
    chunkSeq data offset =
      (offset, (data.drop offset).take CHUNK_SIZE) ::
        chunkSeq data (offset + ((data.drop offset).take CHUNK_SIZE).length) := by
  rw [chunkSeq]
  simp [h]

lemma chunk_length (data : List Nat) (offset : Nat) :
    ((data.drop offset).take CHUNK_SIZE).length = min CHUNK_SIZE (data.length - offset) := by
  simp [List.length_take, List.length_drop]

lemma chunk_length_pos {data : List Nat} {offset : Nat} (h : offset < data.length) :
    0 < ((data.drop offset).take CHUNK_SIZE).length := by
  rw [chunk_length]
  have : 0 < CHUNK_SIZE := by norm_num [CHUNK_SIZE]
  omega

lemma chunkSeq_mem {data : List Nat} {offset : Nat} :
    ∀ p ∈ chunkSeq data offset,
      offset ≤ p.1 ∧ p.1 < data.length ∧ p.2 = (data.drop p.1).take CHUNK_SIZE := by
  induction offset using chunkSeq.induct data with
  | case1 off hlt ih =>
    rw [chunkSeq_of_lt hlt]
    intro p hp
    rcases List.mem_cons.mp hp with h1 | h2
    · subst h1
      exact ⟨le_refl _, hlt, rfl⟩
    · have := ih p h2
      refine ⟨?_, this.2.1, this.2.2⟩
      have := this.1
      omega
  | case2 off hge =>
    rw [chunkSeq_of_not_lt hge]
    intro p hp
    simp at hp

lemma chunkSeq_head {data : List Nat} {offset : Nat} (h : offset < data.length) :
    (chunkSeq data offset).head? = some (offset, (data.drop offset).take CHUNK_SIZE) := by
  rw [chunkSeq_of_lt h]
  rfl

lemma chunkSeq_chain (data : List Nat) (offset : Nat) :
    List.Chain' (fun a b => b.1 = a.1 + a.2.length) (chunkSeq data offset) := by
  induction offset using chunkSeq.induct data with
  | case1 off hlt ih =>
    rw [chunkSeq_of_lt hlt]
    rw [List.chain'_cons']
    refine ⟨?_, ih⟩
    intro b hb
    by_cases h2 : off + ((data.drop off).take CHUNK_SIZE).length < data.length
    · rw [chunkSeq_head h2] at hb
      simp at hb
      subst hb
      simp [chunk_length]
    · rw [chunkSeq_of_not_lt h2] at hb
      simp at hb
  | case2 off hge =>
    rw [chunkSeq_of_not_lt hge]
    exact List.chain'_nil

lemma chunkSeq_lastEnd {data : List Nat} {offset : Nat} (h : offset < data.length) :
    (chunkSeq data offset).getLast?.map (fun p => p.1 + p.2.length) = some data.length := by
  induction offset using chunkSeq.induct data with
  | case1 off hlt ih =>
    rw [chunkSeq_of_lt hlt]
    by_cases h2 : off + ((data.drop off).take CHUNK_SIZE).length < data.length
    · have htail := ih h2
      have hne : chunkSeq data (off + ((data.drop off).take CHUNK_SIZE).length) ≠ [] := by
        rw [chunkSeq_of_lt h2]
        simp
      rcases List.exists_cons_of_ne_nil hne with ⟨b, L, hbl⟩
      rw [hbl]
      rw [hbl] at htail
      rw [List.getLast?_cons_cons]
      rwa [← List.getLast?_cons_cons (a := b)] at htail
    · rw [chunkSeq_of_not_lt h2]
      have hcl := chunk_length data off
      rw [hcl] at h2
      simp [hcl]
      omega
  | case2 off hge =>
    exact absurd h hge

lemma drop_length_take {α : Type} (n : Nat) (xs : List α) :
    xs.drop ((xs.take n).length) = xs.drop n := by
  rw [List.length_take]
  rcases le_total n xs.length with h | h
  · rw [min_eq_left h]
  · rw [min_eq_right h, List.drop_length, List.drop_eq_nil_of_le h]

lemma chunkSeq_flatten (data : List Nat) (offset : Nat) :
    ((chunkSeq data offset).map Prod.snd).flatten = data.drop offset := by
  induction offset using chunkSeq.induct data with
  | case1 off hlt ih =>
    rw [chunkSeq_of_lt hlt]
    simp only [List.map_cons, List.flatten_cons]
    rw [ih, ← List.drop_drop, drop_length_take]
    exact List.take_append_drop _ _
  | case2 off hge =>
    rw [chunkSeq_of_not_lt hge]
    simp only [List.map_nil, List.flatten_nil]
    exact (List.drop_eq_nil_of_le (by omega)).symm

lemma chunkSeq_keys_sorted (data : List Nat) (offset : Nat) :
    List.Chain' (· < ·) ((chunkSeq data offset).map Prod.fst) := by
  induction offset using chunkSeq.induct data with
  | case1 off hlt ih =>
    rw [chunkSeq_of_lt hlt]
    rw [List.map_cons, List.chain'_cons']
    refine ⟨?_, ih⟩
    intro b hb
    by_cases h2 : off + ((data.drop off).take CHUNK_SIZE).length < data.length
    · rw [List.head?_map, chunkSeq_head h2] at hb
      simp at hb
      subst hb
      have hc : 0 < CHUNK_SIZE := by norm_num [CHUNK_SIZE]
      simp [chunk_length]
      omega
    · rw [List.head?_map, chunkSeq_of_not_lt h2] at hb
      simp at hb
  | case2 off hge =>
    rw [chunkSeq_of_not_lt hge]
    exact List.chain'_nil

/-! ### Lemmas about the write loop -/

lemma writeChunks_of_not_lt (env : Env) (data : List Nat) (offset : Nat)
    (st : ModelStatus) (store : ChunkStore) (h : ¬ offset < data.length) :
    writeChunks env data offset st store = ⟨store, st, [], [], none⟩ := by
  rw [writeChunks]
  simp [h]

lemma writeChunks_of_throw {env : Env} {data : List Nat} {offset : Nat}
    (h : offset < data.length) {msg : String} (hp : env.putThrows offset = some msg)
    (st : ModelStatus) (store : ChunkStore) :
    writeChunks env data offset st store =
      ⟨store, st, [], [.put offset ((data.drop offset).take CHUNK_SIZE)], some msg⟩ := by
  rw [writeChunks]
  simp [h, hp]

lemma writeChunks_of_ok {env : Env} {data : List Nat} {offset : Nat}
    (h : offset < data.length) (hp : env.putThrows offset = none)
    (st : ModelStatus) (store : ChunkStore) :
    writeChunks env data offset st store =
      (let chunk := (data.drop offset).take CHUNK_SIZE
       let r := writeChunks env data (offset + chunk.length)
         { st with importProgress := ((offset + chunk.length : Nat) : ℚ) / (data.length : ℚ) * 80 }
         (putChunk store offset chunk)
       ⟨r.store, r.status,
        (((offset + chunk.length : Nat) : ℚ) / (data.length : ℚ) * 80) :: r.trace,
        .put offset chunk :: r.calls, r.err⟩) := by
  rw [writeChunks]
  simp [h, hp]

lemma putChunk_append : ∀ (store : ChunkStore) (off : Nat) (bytes : List Nat),
    (∀ p ∈ store, p.1 < off) → putChunk store off bytes = store ++ [(off, bytes)]
  | [], _off, _bytes, _ => rfl
  | (k, v) :: rest, off, bytes, h => by
    have hk : k < off := h (k, v) (List.mem_cons_self _ _)
    rw [putChunk]
    rw [if_neg (by omega), if_neg (by omega)]
    rw [putChunk_append rest off bytes (fun p hp => h p (List.mem_cons_of_mem _ hp))]
    rfl

lemma cons_getLast?_getD {α : Type} (v d : α) (L : List α) :
    ((v :: L).getLast?).getD d = (L.getLast?).getD v := by
  cases L with
  | nil => rfl
  | cons a L =>
    rw [List.getLast?_cons_cons]
    have hs : (a :: L).getLast?.isSome := by
      rw [List.getLast?_isSome]
      simp
    obtain ⟨x, hx⟩ := Option.isSome_iff_exists.mp hs
    rw [hx]
    rfl

lemma writeChunks_noFail (env : Env) (data : List Nat)
    (hp : ∀ o, env.putThrows o = none) :
    ∀ offset st store, (∀ p ∈ store, p.1 < offset) →
      writeChunks env data offset st store =
        ⟨store ++ chunkSeq data offset,
         { st with importProgress :=
             ((chunkSeq data offset).map (progOf data.length)).getLastD st.importProgress },
         (chunkSeq data offset).map (progOf data.length),
         (chunkSeq data offset).map (fun p => StoreOp.put p.1 p.2),
         none⟩ := by
  intro offset st store
  induction offset, st, store using writeChunks.induct env data with
  | case1 off st store hlt msg hmsg =>
    rw [hp off] at hmsg
    cases hmsg
  | case2 off st store hlt hnone chunk ih =>
    intro hkeys
    have hput : putChunk store off ((data.drop off).take CHUNK_SIZE) =
        store ++ [(off, (data.drop off).take CHUNK_SIZE)] :=
      putChunk_append store off _ hkeys
    have hlen : 0 < ((data.drop off).take CHUNK_SIZE).length := chunk_length_pos hlt
    have hkeys' : ∀ p ∈ putChunk store off ((data.drop off).take CHUNK_SIZE),
        p.1 < off + ((data.drop off).take CHUNK_SIZE).length := by
      intro p hmem
      rw [hput] at hmem
      rcases List.mem_append.mp hmem with h1 | h2
      · have := hkeys p h1
        omega
      · simp at h2
        subst h2
        show off < off + ((data.drop off).take CHUNK_SIZE).length
        omega
    have ih' := ih hkeys'
    have hchunk : chunk = (data.drop off).take CHUNK_SIZE := rfl
    rw [hchunk] at ih'
    rw [writeChunks_of_ok hlt hnone]
    dsimp only
    rw [ih', hput, chunkSeq_of_lt hlt]
    simp [progOf, List.getLastD_cons]
    rw [cons_getLast?_getD, List.getLast?_map]
  | case3 off st store hge =>
    intro _hkeys
    rw [writeChunks_of_not_lt env data off st store hge, chunkSeq_of_not_lt hge]
    simp

lemma writeChunks_status_fields (env : Env) (data : List Nat) :
    ∀ offset st store, ∃ q : ℚ,
      (writeChunks env data offset st store).status = { st with importProgress := q } := by
  intro offset st store
  induction offset, st, store using writeChunks.induct env data with
  | case1 off st store hlt msg hmsg =>
    refine ⟨st.importProgress, ?_⟩
    rw [writeChunks_of_throw hlt hmsg]
  | case2 off st store hlt hnone chunk ih =>
    obtain ⟨q, hq⟩ := ih
    refine ⟨q, ?_⟩
    rw [writeChunks_of_ok hlt hnone]
    dsimp only
    rw [hq]
  | case3 off st store hge =>
    refine ⟨st.importProgress, ?_⟩
    rw [writeChunks_of_not_lt env data off st store hge]

lemma writeChunks_trace_prefixOf (env : Env) (data : List Nat) :
    ∀ offset st store,
      (writeChunks env data offset st store).trace <+:
        (chunkSeq data offset).map (progOf data.length) := by
  intro offset st store
  induction offset, st, store using writeChunks.induct env data with
  | case1 off st store hlt msg hmsg =>
    rw [writeChunks_of_throw hlt hmsg]
    exact List.nil_prefix
  | case2 off st store hlt hnone chunk ih =>
    rw [writeChunks_of_ok hlt hnone, chunkSeq_of_lt hlt]
    dsimp only
    rw [List.map_cons]
    have : progOf data.length (off, (data.drop off).take CHUNK_SIZE) =
        ((off + ((data.drop off).take CHUNK_SIZE).length : Nat) : ℚ) / (data.length : ℚ) * 80 := by
      simp [progOf]
    rw [this]
    exact (List.prefix_cons_inj _).mpr ih
  | case3 off st store hge =>
    rw [writeChunks_of_not_lt env data off st store hge]
    exact List.nil_prefix

/-! ### Bounds and monotonicity of the reported progress values -/

lemma progOf_nonneg (len : Nat) (p : Nat × List Nat) : 0 ≤ progOf len p := by
  unfold progOf
  positivity

lemma chunkSeq_end_le {data : List Nat} {offset : Nat} {p : Nat × List Nat}
    (hp : p ∈ chunkSeq data offset) : p.1 + p.2.length ≤ data.length := by
  have h := chunkSeq_mem p hp
  rw [h.2.2, chunk_length]
  have := h.2.1
  omega

lemma chunkSeq_prog_le80 {data : List Nat} {offset : Nat} {q : ℚ}
    (hq : q ∈ (chunkSeq data offset).map (progOf data.length)) : q ≤ 80 := by
  rcases List.mem_map.mp hq with ⟨p, hpmem, rfl⟩
  have hend := chunkSeq_end_le hpmem
  have hlen : 0 < data.length := by
    have := (chunkSeq_mem p hpmem).2.1
    omega
  unfold progOf
  have h1 : ((p.1 + p.2.length : Nat) : ℚ) / (data.length : ℚ) ≤ 1 := by
    rw [div_le_one (by exact_mod_cast hlen)]
    exact_mod_cast hend
  have h2 := mul_le_mul_of_nonneg_right h1 (by norm_num : (0 : ℚ) ≤ 80)
  simpa using h2

lemma chunkSeq_prog_chain (data : List Nat) (offset : Nat) :
    List.Chain' (· ≤ ·) ((chunkSeq data offset).map (progOf data.length)) := by
  rw [List.chain'_map]
  refine (chunkSeq_chain data offset).imp ?_
  intro a b hab
  unfold progOf
  rcases Nat.eq_zero_or_pos data.length with h0 | hpos
  · simp [h0]
  · have h1 : ((a.1 + a.2.length : Nat) : ℚ) ≤ ((b.1 + b.2.length : Nat) : ℚ) := by
      have : a.1 + a.2.length ≤ b.1 + b.2.length := by omega
      exact_mod_cast this
    have hc : (0 : ℚ) < (data.length : ℚ) := by exact_mod_cast hpos
    exact mul_le_mul_of_nonneg_right (div_le_div_of_nonneg_right h1 hc.le)
      (by norm_num : (0 : ℚ) ≤ 80)

lemma putsOf_map_put (l : List (Nat × List Nat)) :
    putsOf (l.map (fun p => StoreOp.put p.1 p.2)) = l := by
  induction l with
  | nil => rfl
  | cons a l ih => simp [putsOf, ih]

lemma mem_of_getLast?_eq {α : Type} : ∀ {l : List α} {a : α}, l.getLast? = some a → a ∈ l := by
  intro l
  induction l with
  | nil =>
    intro a h
    cases h
  | cons b t ih =>
    intro a h
    cases t with
    | nil =>
      simp at h
      simp [h]
    | cons c u =>
      rw [List.getLast?_cons_cons] at h
      exact List.mem_cons_of_mem _ (ih h)

/-! ### Sizes and names of the concrete inputs -/

lemma bigFile_content_length : bigFile.content.length = 100 * 1024 * 1024 := by
  show (List.replicate (100 * 1024 * 1024) (0 : Nat)).length = 100 * 1024 * 1024
  rw [List.length_replicate]

lemma bigFile_min : ¬ bigFile.size < MODEL_VALIDATION.MIN_SIZE := by
  show ¬ bigFile.content.length < MODEL_VALIDATION.MIN_SIZE
  rw [bigFile_content_length]
  norm_num [ MODEL_VALIDATION.MIN_SIZE]

lemma bigFile_max : ¬ MODEL_VALIDATION.MAX_SIZE < bigFile.size := by
  show ¬ MODEL_VALIDATION.MAX_SIZE < bigFile.content.length
  rw [bigFile_content_length]
  norm_num [ MODEL_VALIDATION.MAX_SIZE]

lemma bigFile_ext : strEndsWith bigFile.name MODEL_VALIDATION.EXPECTED_EXTENSION = true := by
  decide

lemma bigFile_min_le : MODEL_VALIDATION.MIN_SIZE ≤ bigFile.content.length :=
  Nat.le_of_not_lt bigFile_min

lemma bigFile_le_max : bigFile.content.length ≤ MODEL_VALIDATION.MAX_SIZE :=
  Nat.le_of_not_lt bigFile_max

lemma bigFile_len_pos : 0 < bigFile.content.length := by
  rw [bigFile_content_length]
  norm_num

lemma smallFile_ext : strEndsWith smallFile.name MODEL_VALIDATION.EXPECTED_EXTENSION = true := by
  decide

lemma smallFile_min : smallFile.size < MODEL_VALIDATION.MIN_SIZE := by
  show (List.replicate (32 * 1024 * 1024) (0 : Nat)).length < MODEL_VALIDATION.MIN_SIZE
  rw [List.length_replicate]
  norm_num [ MODEL_VALIDATION.MIN_SIZE]

lemma okEnv_quota : (checkStorageQuota okEnv.quotaAPI).hasQuota = true := by decide

lemma hashFailEnv_quota : (checkStorageQuota hashFailEnv.quotaAPI).hasQuota = true := by decide

/-! ### Characterizations of the import pipeline's terminal paths -/

/-- An import session that fails validation because the file is below the
minimum size. -/
lemma importModel_tooSmall (env : Env) (st : ModelStatus) (store : ChunkStore)
    (file : SFile)
    (hname : strEndsWith file.name MODEL_VALIDATION.EXPECTED_EXTENSION = true)
    (hmin : file.size < MODEL_VALIDATION.MIN_SIZE) :
    importModel env st store file =
      failWith { st with importProgress := 0, error := none,
                         verificationStatus := some VStatus.unverified }
        store [0] [] FILE_TOO_SMALL_MESSAGE := by
  unfold importModel
  dsimp only
  rw [if_neg (fun hcon => hcon hname), if_pos hmin]

/-- A fully successful import session: validation, quota, every chunk
write and the digest computation all succeed. -/
lemma importModel_success (env : Env) (st : ModelStatus) (store : ChunkStore) (file : SFile)
    (hname : strEndsWith file.name MODEL_VALIDATION.EXPECTED_EXTENSION = true)
    (hmin : ¬ file.size < MODEL_VALIDATION.MIN_SIZE)
    (hmax : ¬ MODEL_VALIDATION.MAX_SIZE < file.size)
    (hq : (checkStorageQuota env.quotaAPI).hasQuota = true)
    (hc : env.clearThrows = none)
    (hp : ∀ o, env.putThrows o = none)
    (hh : env.hashThrows = none) :
    importModel env st store file =
      ⟨{ st with isImported := true, isLoaded := true,
                 fileName := some file.name, fileSize := some file.size,
                 sha256 := some (env.hashFn file.content),
                 importProgress := 100, error := none,
                 verificationStatus :=
                   some (if (KNOWN_MODEL_HASHES (env.hashFn file.content)).isSome then
                           VStatus.verified
                         else VStatus.unverified) },
       chunkSeq file.content 0,
       [0] ++ (chunkSeq file.content 0).map (progOf file.content.length) ++ [90, 100],
       .clear :: ((chunkSeq file.content 0).map (fun p => StoreOp.put p.1 p.2) ++
         [.getAllChunks]),
       .completed⟩ := by
  unfold importModel
  dsimp only
  rw [if_neg (fun hcon => hcon hname), if_neg hmin, if_neg hmax,
    if_neg (fun hcon => hcon hq), hc]
  dsimp only
  rw [writeChunks_noFail env file.content hp 0 _ [] (by simp)]
  dsimp only
  rw [hh]
  dsimp only
  have hsha : (getAll ([] ++ chunkSeq file.content 0)).flatten = file.content := by
    rw [List.nil_append]
    show ((chunkSeq file.content 0).map Prod.snd).flatten = file.content
    simpa using chunkSeq_flatten file.content 0
  rw [hsha]
  simp

/-- An import session that fails at the hashing stage after all chunk
writes succeeded. -/
lemma importModel_hashFail (env : Env) (st : ModelStatus) (store : ChunkStore) (file : SFile)
    (hname : strEndsWith file.name MODEL_VALIDATION.EXPECTED_EXTENSION = true)
    (hmin : ¬ file.size < MODEL_VALIDATION.MIN_SIZE)
    (hmax : ¬ MODEL_VALIDATION.MAX_SIZE < file.size)
    (hq : (checkStorageQuota env.quotaAPI).hasQuota = true)
    (hc : env.clearThrows = none)
    (hp : ∀ o, env.putThrows o = none)
    {msg : String} (hh : env.hashThrows = some msg) :
    importModel env st store file =
      failWith
        { st with
            importProgress :=
              ((chunkSeq file.content 0).map (progOf file.content.length)).getLastD 0,
            error := none, verificationStatus := some .unverified }
        (chunkSeq file.content 0)
        ([0] ++ (chunkSeq file.content 0).map (progOf file.content.length))
        (.clear :: ((chunkSeq file.content 0).map (fun p => StoreOp.put p.1 p.2) ++
          [.getAllChunks]))
        msg := by
  unfold importModel
  dsimp only
  rw [if_neg (fun hcon => hcon hname), if_neg hmin, if_neg hmax,
    if_neg (fun hcon => hcon hq), hc]
  dsimp only
  rw [writeChunks_noFail env file.content hp 0 _ [] (by simp)]
  dsimp only
  rw [hh]
  simp

/-- Case analysis over every terminal path of `importModel`: either the
session completes with the full trace shape, or it fails with a message,
the trace ends in the catch block's 0, the part before it is the initial 0
possibly followed by the write-phase values, and the status keeps the
identifying fields while `verificationStatus` becomes `failed`. -/
lemma importModel_branches (env : Env) (st : ModelStatus) (store : ChunkStore)
    (file : SFile) :
    ((importModel env st store file).outcome = Outcome.completed ∧
      (importModel env st store file).trace =
        [0] ++ (writeChunks env file.content 0
          { st with importProgress := 0, error := none,
                    verificationStatus := some VStatus.unverified } []).trace ++ [90, 100]) ∨
    (∃ msg tr, (importModel env st store file).outcome = Outcome.failed msg ∧
      (importModel env st store file).trace = tr ++ [0] ∧
      (tr = [0] ∨ tr = [0] ++ (writeChunks env file.content 0
          { st with importProgress := 0, error := none,
                    verificationStatus := some VStatus.unverified } []).trace) ∧
      (importModel env st store file).status.fileName = st.fileName ∧
      (importModel env st store file).status.fileSize = st.fileSize ∧
      (importModel env st store file).status.sha256 = st.sha256 ∧
      (importModel env st store file).status.isImported = st.isImported ∧
      (importModel env st store file).status.verificationStatus = some VStatus.failed) := by
  unfold importModel
  dsimp only
  by_cases h1 : strEndsWith file.name MODEL_VALIDATION.EXPECTED_EXTENSION = true
  case neg =>
    rw [if_pos h1]
    exact Or.inr ⟨_, [0], rfl, rfl, Or.inl rfl, rfl, rfl, rfl, rfl, rfl⟩
  case pos =>
    rw [if_neg (fun hcon => hcon h1)]
    by_cases h2 : file.size < MODEL_VALIDATION.MIN_SIZE
    case pos =>
      rw [if_pos h2]
      exact Or.inr ⟨_, [0], rfl, rfl, Or.inl rfl, rfl, rfl, rfl, rfl, rfl⟩
    case neg =>
      rw [if_neg h2]
      by_cases h3 : MODEL_VALIDATION.MAX_SIZE < file.size
      case pos =>
        rw [if_pos h3]
        exact Or.inr ⟨_, [0], rfl, rfl, Or.inl rfl, rfl, rfl, rfl, rfl, rfl⟩
      case neg =>
        rw [if_neg h3]
        by_cases h4 : (checkStorageQuota env.quotaAPI).hasQuota = true
        case neg =>
          rw [if_pos h4]
          exact Or.inr ⟨_, [0], rfl, rfl, Or.inl rfl, rfl, rfl, rfl, rfl, rfl⟩
        case pos =>
          rw [if_neg (fun hcon => hcon h4)]
          rcases hcl : env.clearThrows with _ | m
          · dsimp only
            obtain ⟨q, hw⟩ := writeChunks_status_fields env file.content 0
              { st with importProgress := 0, error := none,
                        verificationStatus := some VStatus.unverified } []
            rcases herr : (writeChunks env file.content 0
                { st with importProgress := 0, error := none,
                          verificationStatus := some VStatus.unverified } []).err with _ | m2
            · dsimp only
              rcases hht : env.hashThrows with _ | m3
              · dsimp only
                exact Or.inl ⟨rfl, rfl⟩
              · dsimp only
                refine Or.inr ⟨m3, _, rfl, rfl, Or.inr rfl, ?_, ?_, ?_, ?_, ?_⟩ <;>
                  simp [failWith, hw]
            · dsimp only
              refine Or.inr ⟨m2, _, rfl, rfl, Or.inr rfl, ?_, ?_, ?_, ?_, ?_⟩ <;>
                simp [failWith, hw]
          · dsimp only
            exact Or.inr ⟨m, [0], rfl, rfl, Or.inl rfl, rfl, rfl, rfl, rfl, rfl⟩

/-! ### C6: validation failures cause no chunk-store mutation -/

/-- C6: a wrong extension or an out-of-bounds size makes the import fail
immediately with one of the three invalid-input messages; the chunk store
is unchanged and no chunk-store call at all is issued. -/
theorem c6_validation_no_mutation (env : Env) (st : ModelStatus) (store : ChunkStore)
    (file : SFile)
    (h : strEndsWith file.name MODEL_VALIDATION.EXPECTED_EXTENSION = false ∨
         file.size < MODEL_VALIDATION.MIN_SIZE ∨ MODEL_VALIDATION.MAX_SIZE < file.size) :
    (importModel env st store file).calls = [] ∧
      (importModel env st store file).store = store ∧
      ∃ msg, (importModel env st store file).outcome = Outcome.failed msg ∧
        (msg = UI_MESSAGES.INVALID_FILE_TYPE ∨ msg = FILE_TOO_SMALL_MESSAGE ∨
          msg = UI_MESSAGES.FILE_TOO_LARGE) := by
  unfold importModel
  dsimp only
  by_cases h1 : strEndsWith file.name MODEL_VALIDATION.EXPECTED_EXTENSION = true
  · rw [if_neg (fun hcon => hcon h1)]
    by_cases h2 : file.size < MODEL_VALIDATION.MIN_SIZE
    · rw [if_pos h2]
      exact ⟨rfl, rfl, FILE_TOO_SMALL_MESSAGE, rfl, Or.inr (Or.inl rfl)⟩
    · rw [if_neg h2]
      have h3 : MODEL_VALIDATION.MAX_SIZE < file.size := by
        rcases h with ha | hb | hc
        · rw [h1] at ha
          cases ha
        · exact absurd hb h2
        · exact hc
      rw [if_pos h3]
      exact ⟨rfl, rfl, UI_MESSAGES.FILE_TOO_LARGE, rfl, Or.inr (Or.inr rfl)⟩
  · rw [if_pos h1]
    exact ⟨rfl, rfl, UI_MESSAGES.INVALID_FILE_TYPE, rfl, Or.inl rfl⟩

/-- Witness for C6: importing a `.txt` file. -/
theorem c6_validation_no_mutation_witness :
    (importModel okEnv initialModelStatus [] badExtFile).calls = [] ∧
      (importModel okEnv initialModelStatus [] badExtFile).store = [] ∧
      ∃ msg, (importModel okEnv initialModelStatus [] badExtFile).outcome =
          Outcome.failed msg ∧
        (msg = UI_MESSAGES.INVALID_FILE_TYPE ∨ msg = FILE_TOO_SMALL_MESSAGE ∨
          msg = UI_MESSAGES.FILE_TOO_LARGE) :=
  c6_validation_no_mutation okEnv initialModelStatus [] badExtFile (Or.inl (by decide))

/-! ### C4: chunk-store round trip -/

/-- C4: for any byte sequence whose length is within the accepted bounds,
writing it through the pipeline's chunking scheme (16 MiB windows keyed by
offset) into a freshly cleared chunk store and reading back via `getAll`
yields the chunks in ascending offset order, and their concatenation is
exactly the original bytes. -/
theorem c4_chunk_store_round_trip (env : Env) (st : ModelStatus) (data : List Nat)
    (hp : ∀ o, env.putThrows o = none)
    (hmin : MODEL_VALIDATION.MIN_SIZE ≤ data.length)
    (hmax : data.length ≤ MODEL_VALIDATION.MAX_SIZE) :
    List.Chain' (· < ·) ((writeChunks env data 0 st []).store.map Prod.fst) ∧
      (getAll (writeChunks env data 0 st []).store).flatten = data := by
  rw [writeChunks_noFail env data hp 0 st [] (by simp)]
  constructor
  · simpa using chunkSeq_keys_sorted data 0
  · show (getAll ([] ++ chunkSeq data 0)).flatten = data
    rw [List.nil_append]
    show ((chunkSeq data 0).map Prod.snd).flatten = data
    simpa using chunkSeq_flatten data 0

/-- Witness for C4 at the smallest accepted size (a 100 MiB zero file). -/
theorem c4_chunk_store_round_trip_witness :
    List.Chain' (· < ·)
        ((writeChunks okEnv bigFile.content 0 initialModelStatus []).store.map Prod.fst) ∧
      (getAll (writeChunks okEnv bigFile.content 0 initialModelStatus []).store).flatten =
        bigFile.content :=
  c4_chunk_store_round_trip okEnv initialModelStatus bigFile.content (fun _ => rfl)
    bigFile_min_le bigFile_le_max

/-! ### C9: write-loop invariant and termination -/

/-- C9: the write loop starts at offset 0, writes at each offset the slice
of the source taken there (of positive length, at most 16 MiB), advances
the offset by exactly the written slice's length, and terminates exactly
when the offset reaches the total byte count. -/
theorem c9_write_loop_invariant (env : Env) (data : List Nat) (st : ModelStatus)
    (hp : ∀ o, env.putThrows o = none) (hlen : 0 < data.length) :
    (writeChunks env data 0 st []).err = none ∧
      (putsOf (writeChunks env data 0 st []).calls).head?.map Prod.fst = some 0 ∧
      List.Chain' (fun a b => b.1 = a.1 + a.2.length)
        (putsOf (writeChunks env data 0 st []).calls) ∧
      (∀ p ∈ putsOf (writeChunks env data 0 st []).calls,
        0 < p.2.length ∧ p.2.length ≤ CHUNK_SIZE ∧ p.2 = (data.drop p.1).take CHUNK_SIZE) ∧
      (putsOf (writeChunks env data 0 st []).calls).getLast?.map (fun p => p.1 + p.2.length) =
        some data.length := by
  rw [writeChunks_noFail env data hp 0 st [] (by simp)]
  dsimp only
  rw [putsOf_map_put]
  refine ⟨rfl, ?_, chunkSeq_chain data 0, ?_, chunkSeq_lastEnd hlen⟩
  · rw [chunkSeq_head hlen]
    rfl
  · intro p hp2
    have h := chunkSeq_mem p hp2
    have hck : 0 < CHUNK_SIZE := by norm_num [CHUNK_SIZE]
    refine ⟨?_, ?_, h.2.2⟩
    · rw [h.2.2, chunk_length]
      have := h.2.1
      omega
    · rw [h.2.2, chunk_length]
      omega

/-- Witness for C9 on a concrete 3-byte source. -/
theorem c9_write_loop_invariant_witness :
    (writeChunks okEnv [0, 0, 0] 0 initialModelStatus []).err = none ∧
      (putsOf (writeChunks okEnv [0, 0, 0] 0 initialModelStatus []).calls).getLast?.map
          (fun p => p.1 + p.2.length) = some ([0, 0, 0] : List Nat).length :=
  ⟨(c9_write_loop_invariant okEnv [0, 0, 0] initialModelStatus (fun _ => rfl)
      (by norm_num)).1,
   (c9_write_loop_invariant okEnv [0, 0, 0] initialModelStatus (fun _ => rfl)
      (by norm_num)).2.2.2.2⟩

/-! ### C7: classification (corrected) -/

/-- Counterexample to C7 as stated: a successful import whose digest is in
the registry yields `verificationStatus = verified`, but the ModelRecord
does not carry the registry entry's metadata name — its `fileName` is the
input file's name. -/
theorem c7_counterexample :
    (importModel okEnv priorStatus [] bigFile).outcome = Outcome.completed ∧
      (importModel okEnv priorStatus [] bigFile).status.verificationStatus =
        some VStatus.verified ∧
      (KNOWN_MODEL_HASHES
          "e3b0c44298fc1c149afbf4c8996fb92427ae41e4649b934ca495991b7852b855").map
        KnownModel.name = some "test-model.gguf" ∧
      (importModel okEnv priorStatus [] bigFile).status.fileName ≠
        some "test-model.gguf" := by
  rw [importModel_success okEnv priorStatus [] bigFile bigFile_ext
    bigFile_min bigFile_max okEnv_quota rfl (fun _ => rfl) rfl]
  refine ⟨rfl, by decide, by decide, by decide⟩

/-- C7 (amended): classification is a pure lookup of the digest with no
failure case — on a successful import, a digest present in the registry
yields `verified` and an absent digest yields `unverified`; the registry
metadata is used only for this decision, and the record's `fileName`
remains the input file's name. -/
theorem c7_classification_amended (env : Env) (st : ModelStatus) (store : ChunkStore)
    (file : SFile)
    (hname : strEndsWith file.name MODEL_VALIDATION.EXPECTED_EXTENSION = true)
    (hmin : ¬ file.size < MODEL_VALIDATION.MIN_SIZE)
    (hmax : ¬ MODEL_VALIDATION.MAX_SIZE < file.size)
    (hq : (checkStorageQuota env.quotaAPI).hasQuota = true)
    (hc : env.clearThrows = none)
    (hp : ∀ o, env.putThrows o = none)
    (hh : env.hashThrows = none) :
    ((KNOWN_MODEL_HASHES (env.hashFn file.content)).isSome →
        (importModel env st store file).status.verificationStatus = some VStatus.verified) ∧
      (KNOWN_MODEL_HASHES (env.hashFn file.content) = none →
        (importModel env st store file).status.verificationStatus = some VStatus.unverified) ∧
      (importModel env st store file).status.fileName = some file.name ∧
      (importModel env st store file).status.sha256 = some (env.hashFn file.content) ∧
      (importModel env st store file).outcome = Outcome.completed := by
  rw [importModel_success env st store file hname hmin hmax hq hc hp hh]
  refine ⟨?_, ?_, rfl, rfl, rfl⟩
  · intro hsome
    simp [hsome]
  · intro hnone
    simp [hnone]

/-- Witness for the amended C7 at a concrete verified import. -/
theorem c7_classification_amended_witness :
    (importModel okEnv priorStatus [] bigFile).status.verificationStatus =
        some VStatus.verified ∧
      (importModel okEnv priorStatus [] bigFile).status.fileName = some "a.gguf" := by
  have h := c7_classification_amended okEnv priorStatus [] bigFile bigFile_ext
    bigFile_min bigFile_max okEnv_quota rfl (fun _ => rfl) rfl
  exact ⟨h.1 (by decide), h.2.2.1⟩

/-! ### C1: failure non-destructiveness (corrected) -/

/-- Counterexample to C1 as stated: a session failing at the Hashing stage
leaves `fileName`/`fileSize`/`sha256` alone but overwrites the previously
persisted `verificationStatus` (here `verified`) with `failed`. -/
theorem c1_counterexample :
    (importModel hashFailEnv priorStatus [] bigFile).outcome =
        Outcome.failed "hash failure" ∧
      priorStatus.verificationStatus = some VStatus.verified ∧
      (importModel hashFailEnv priorStatus [] bigFile).status.verificationStatus ≠
        priorStatus.verificationStatus := by
  rw [importModel_hashFail hashFailEnv priorStatus [] bigFile bigFile_ext
    bigFile_min bigFile_max hashFailEnv_quota rfl (fun _ => rfl) rfl]
  exact ⟨rfl, rfl, by decide⟩

/-- C1 (amended): every import session that ends in `Failed` leaves the
previously persisted `fileName`, `fileSize`, `sha256` and `isImported`
unchanged, but sets `verificationStatus` to `failed`; only the fields of
the identifying record are preserved, not the verification flag. -/
theorem c1_failed_session_amended (env : Env) (st : ModelStatus) (store : ChunkStore)
    (file : SFile) (msg : String)
    (h : (importModel env st store file).outcome = Outcome.failed msg) :
    (importModel env st store file).status.fileName = st.fileName ∧
      (importModel env st store file).status.fileSize = st.fileSize ∧
      (importModel env st store file).status.sha256 = st.sha256 ∧
      (importModel env st store file).status.isImported = st.isImported ∧
      (importModel env st store file).status.verificationStatus = some VStatus.failed := by
  rcases importModel_branches env st store file with ⟨hc, _⟩ |
    ⟨m2, tr, hout, _, _, f1, f2, f3, f4, f5⟩
  · rw [hc] at h
    cases h
  · exact ⟨f1, f2, f3, f4, f5⟩

/-- Witness for the amended C1: a failed session (wrong extension) after a
previously verified import. -/
theorem c1_failed_session_amended_witness :
    (importModel okEnv priorStatus [] badExtFile).status.fileName = priorStatus.fileName ∧
      (importModel okEnv priorStatus [] badExtFile).status.fileSize = priorStatus.fileSize ∧
      (importModel okEnv priorStatus [] badExtFile).status.sha256 = priorStatus.sha256 ∧
      (importModel okEnv priorStatus [] badExtFile).status.isImported =
        priorStatus.isImported ∧
      (importModel okEnv priorStatus [] badExtFile).status.verificationStatus =
        some VStatus.failed :=
  c1_failed_session_amended okEnv priorStatus [] badExtFile
    UI_MESSAGES.INVALID_FILE_TYPE (by decide)

/-! ### C8: quota guard fails closed -/

/-- C8: when the quota API is unavailable or throws, `checkStorageQuota`
reports usage 0, quota 0 and no sufficient quota; and in every case it
reports sufficient quota only when the free space exceeds the 2 GiB
margin. -/
theorem c8_quota_fail_closed (api : QuotaAPI) :
    ((api = .unavailable ∨ api = .throws) → checkStorageQuota api = ⟨false, 0, 0⟩) ∧
      ((checkStorageQuota api).hasQuota = true →
        2 * 1024 * 1024 * 1024 <
          (checkStorageQuota api).quota - (checkStorageQuota api).usage) := by
  constructor
  · rintro (rfl | rfl)
    · decide
    · decide
  · intro h
    cases api with
    | unavailable => simp [checkStorageQuota, getStorageQuota] at h
    | throws => simp [checkStorageQuota, getStorageQuota] at h
    | reports u q =>
      simp only [checkStorageQuota, getStorageQuota, decide_eq_true_eq] at h ⊢
      omega

/-! ### C5: progress formula (corrected) -/

/-- Counterexample to C5 as stated: a 32 MiB file never reaches the write
phase — it is rejected by validation ("File too small"), the trace is just
`[0, 0]`, and no progress value 40 is ever reported. -/
theorem c5_counterexample :
    (importModel okEnv initialModelStatus [] smallFile).outcome =
        Outcome.failed FILE_TOO_SMALL_MESSAGE ∧
      (importModel okEnv initialModelStatus [] smallFile).trace = [0, 0] ∧
      (40 : ℚ) ∉ (importModel okEnv initialModelStatus [] smallFile).trace := by
  rw [importModel_tooSmall okEnv initialModelStatus [] smallFile smallFile_ext smallFile_min]
  refine ⟨rfl, rfl, ?_⟩
  norm_num [failWith]

/-- C5 (amended): on a successful import the trace is the initial 0, then
one value per chunk equal to `(bytesWrittenSoFar / totalBytes) * 80`, then
90 after hashing and 100 on completion; the first write-phase value is
`(min CHUNK_SIZE totalBytes / totalBytes) * 80` (a 32 MiB file never gets
a write-phase value, being rejected by validation). -/
theorem c5_progress_formula_amended (env : Env) (st : ModelStatus) (store : ChunkStore)
    (file : SFile)
    (hname : strEndsWith file.name MODEL_VALIDATION.EXPECTED_EXTENSION = true)
    (hmin : ¬ file.size < MODEL_VALIDATION.MIN_SIZE)
    (hmax : ¬ MODEL_VALIDATION.MAX_SIZE < file.size)
    (hq : (checkStorageQuota env.quotaAPI).hasQuota = true)
    (hc : env.clearThrows = none)
    (hp : ∀ o, env.putThrows o = none)
    (hh : env.hashThrows = none) :
    (importModel env st store file).trace =
        [0] ++ (chunkSeq file.content 0).map (progOf file.content.length) ++ [90, 100] ∧
      (∀ q ∈ (chunkSeq file.content 0).map (progOf file.content.length),
        ∃ p ∈ chunkSeq file.content 0,
          q = ((p.1 + p.2.length : Nat) : ℚ) / (file.content.length : ℚ) * 80) ∧
      ((chunkSeq file.content 0).map (progOf file.content.length)).head? =
        some (((min CHUNK_SIZE file.content.length : Nat) : ℚ) /
          (file.content.length : ℚ) * 80) := by
  have hlen : 0 < file.content.length := by
    have h1 := Nat.le_of_not_lt hmin
    have h2 : (0 : Nat) < MODEL_VALIDATION.MIN_SIZE := by
      norm_num [ MODEL_VALIDATION.MIN_SIZE]
    exact lt_of_lt_of_le h2 h1
  refine ⟨?_, ?_, ?_⟩
  · rw [importModel_success env st store file hname hmin hmax hq hc hp hh]
  · intro q hq2
    rcases List.mem_map.mp hq2 with ⟨p, hpmem, rfl⟩
    exact ⟨p, hpmem, rfl⟩
  · rw [List.head?_map, chunkSeq_head hlen]
    simp [progOf, chunk_length]

/-- Witness for the amended C5: the smallest accepted file (100 MiB), whose
first write-phase progress value is 64/5 = 12.8, not 40. -/
theorem c5_progress_formula_amended_witness :
    (importModel okEnv initialModelStatus [] bigFile).trace =
        [0] ++ (chunkSeq bigFile.content 0).map (progOf bigFile.content.length) ++
          [90, 100] ∧
      ((chunkSeq bigFile.content 0).map (progOf bigFile.content.length)).head? =
        some (64 / 5) := by
  have h := c5_progress_formula_amended okEnv initialModelStatus [] bigFile bigFile_ext
    bigFile_min bigFile_max okEnv_quota rfl (fun _ => rfl) rfl
  refine ⟨h.1, ?_⟩
  rw [h.2.2, bigFile_content_length]
  norm_num [CHUNK_SIZE]

/-! ### C2: progress monotonicity (corrected) -/

lemma chain_zero_trace {data : List Nat} {t : List ℚ}
    (hpre : t <+: (chunkSeq data 0).map (progOf data.length)) :
    List.Chain' (· ≤ ·) ((0 : ℚ) :: t) := by
  rw [List.chain'_cons']
  constructor
  · intro y hy
    have hmem : y ∈ t := List.mem_of_mem_head? hy
    have hmem2 : y ∈ (chunkSeq data 0).map (progOf data.length) :=
      hpre.sublist.subset hmem
    rcases List.mem_map.mp hmem2 with ⟨p, _, rfl⟩
    exact progOf_nonneg data.length p
  · exact List.Chain'.prefix (chunkSeq_prog_chain data 0) hpre

lemma trace_last_le80 {data : List Nat} {t : List ℚ} {x : ℚ}
    (hpre : t <+: (chunkSeq data 0).map (progOf data.length))
    (hx : ((0 : ℚ) :: t).getLast? = some x) : x ≤ 80 := by
  have hmem := mem_of_getLast?_eq hx
  rcases List.mem_cons.mp hmem with h0 | hmem'
  · rw [h0]
    norm_num
  · exact chunkSeq_prog_le80 (hpre.sublist.subset hmem')

/-- Counterexample to C2 as stated: a session that fails at the hashing
stage after writing all chunks of a 100 MiB file reports 80 and then 0 —
the final `catch` update lowers the progress, so the reported sequence is
not non-decreasing. -/
theorem c2_counterexample :
    (importModel hashFailEnv priorStatus [] bigFile).outcome =
        Outcome.failed "hash failure" ∧
      ¬ List.Chain' (· ≤ ·) (importModel hashFailEnv priorStatus [] bigFile).trace := by
  rw [importModel_hashFail hashFailEnv priorStatus [] bigFile bigFile_ext
    bigFile_min bigFile_max hashFailEnv_quota rfl (fun _ => rfl) rfl]
  refine ⟨rfl, ?_⟩
  simp only [failWith]
  intro hchain
  have hlen : 0 < bigFile.content.length := bigFile_len_pos
  have hlast := @chunkSeq_lastEnd bigFile.content 0 hlen
  rcases Option.map_eq_some'.mp hlast with ⟨p, hp1, hp2⟩
  have hL80 : ((chunkSeq bigFile.content 0).map (progOf bigFile.content.length)).getLast? =
      some 80 := by
    rw [List.getLast?_map, hp1]
    show some (progOf bigFile.content.length p) = some 80
    congr 1
    unfold progOf
    rw [hp2]
    have hne : ((bigFile.content.length : Nat) : ℚ) ≠ 0 := by
      exact_mod_cast hlen.ne'
    rw [div_self hne, one_mul]
  rcases List.chain'_append.mp hchain with ⟨_, _, hjun⟩
  have h80 : (80 : ℚ) ≤ 0 := by
    refine hjun 80 ?_ 0 rfl
    rw [List.getLast?_append, hL80]
    rfl
  norm_num at h80

/-- C2 (amended): within one import session the reported progress values
are non-decreasing and end at 100 on success; on failure, however, the
final `catch` update resets the progress to 0, so the trace ends with 0
and only its prefix before that final update is non-decreasing. -/
theorem c2_progress_monotone_amended (env : Env) (st : ModelStatus) (store : ChunkStore)
    (file : SFile) :
    ((importModel env st store file).outcome = Outcome.completed →
        List.Chain' (· ≤ ·) (importModel env st store file).trace ∧
          (importModel env st store file).trace.getLast? = some 100) ∧
      (∀ msg, (importModel env st store file).outcome = Outcome.failed msg →
        (importModel env st store file).trace.getLast? = some 0 ∧
          List.Chain' (· ≤ ·) (importModel env st store file).trace.dropLast) := by
  have hpre : (writeChunks env file.content 0
      { st with importProgress := 0, error := none,
                verificationStatus := some VStatus.unverified } []).trace <+:
      (chunkSeq file.content 0).map (progOf file.content.length) :=
    writeChunks_trace_prefixOf env file.content 0 _ []
  rcases importModel_branches env st store file with ⟨hc, htr⟩ |
    ⟨m2, tr, hout, htr, htr2, _⟩
  · constructor
    · intro _
      rw [htr]
      constructor
      · show List.Chain' (· ≤ ·)
          (((0 : ℚ) :: (writeChunks env file.content 0
            { st with importProgress := 0, error := none,
                      verificationStatus := some VStatus.unverified } []).trace) ++ [90, 100])
        rw [List.chain'_append]
        refine ⟨chain_zero_trace hpre, by norm_num [List.chain'_cons], ?_⟩
        intro x hx y hy
        have hx80 : x ≤ 80 := trace_last_le80 hpre hx
        have hy90 : 90 = y := by simpa using hy
        rw [← hy90]
        linarith
      · have heq : ([0] : List ℚ) ++ (writeChunks env file.content 0
            { st with importProgress := 0, error := none,
                      verificationStatus := some VStatus.unverified } []).trace ++ [90, 100] =
            (([0] ++ (writeChunks env file.content 0
              { st with importProgress := 0, error := none,
                        verificationStatus := some VStatus.unverified } []).trace ++ [90]) ++
              [100]) := by
          simp
        rw [heq, List.getLast?_concat]
    · intro msg hmsg
      rw [hc] at hmsg
      cases hmsg
  · constructor
    · intro hcon
      rw [hout] at hcon
      cases hcon
    · intro msg _
      refine ⟨?_, ?_⟩
      · rw [htr]
        exact List.getLast?_concat _
      · rw [htr, List.dropLast_concat]
        rcases htr2 with h0 | hw
        · rw [h0]
          norm_num [List.chain'_singleton]
        · rw [hw]
          exact chain_zero_trace hpre

/-- Witness for the amended C2: a successful 100 MiB import, and a failed
(wrong extension) session. -/
theorem c2_progress_monotone_amended_witness :
    (List.Chain' (· ≤ ·) (importModel okEnv initialModelStatus [] bigFile).trace ∧
        (importModel okEnv initialModelStatus [] bigFile).trace.getLast? = some 100) ∧
      ((importModel okEnv initialModelStatus [] badExtFile).trace.getLast? = some 0 ∧
        List.Chain' (· ≤ ·)
          (importModel okEnv initialModelStatus [] badExtFile).trace.dropLast) :=
  ⟨(c2_progress_monotone_amended okEnv initialModelStatus [] bigFile).1 (by
      rw [importModel_success okEnv initialModelStatus [] bigFile bigFile_ext
        bigFile_min bigFile_max okEnv_quota rfl (fun _ => rfl) rfl]),
   (c2_progress_monotone_amended okEnv initialModelStatus [] badExtFile).2
     UI_MESSAGES.INVALID_FILE_TYPE (by decide)⟩

/-! ### C3: reset (corrected) -/

/-- Counterexample to C3 as stated: `resetModel` does not clear the chunk
store — a chunk present before the reset is still there afterwards. -/
theorem c3_counterexample :
    (resetModel false ⟨priorStatus, [(0, [1])], none⟩).chunkTable = [(0, [1])] ∧
      ([(0, [1])] : ChunkStore) ≠ ([] : ChunkStore) :=
  ⟨rfl, by decide⟩

/-- C3 (amended): `resetModel` deletes the model row (best-effort, with a
thrown deletion error swallowed) and blanks the reactive status; it is
idempotent and total, but it leaves the chunk store untouched. -/
theorem c3_reset_amended (b : Bool) (s : AppState) :
    resetModel b (resetModel b s) = resetModel b s ∧
      (resetModel b s).chunkTable = s.chunkTable ∧
      (resetModel b s).modelStatus = resetStatusObj ∧
      (b = false → (resetModel b s).modelTable = none) := by
  cases b
  · exact ⟨rfl, rfl, rfl, fun _ => rfl⟩
  · exact ⟨rfl, rfl, rfl, fun hcon => by cases hcon⟩

/-- Witness for the amended C3 at a concrete nonempty state. -/
theorem c3_reset_amended_witness :
    resetModel false (resetModel false ⟨priorStatus, [(0, [1])], none⟩) =
        resetModel false ⟨priorStatus, [(0, [1])], none⟩ ∧
      (resetModel false ⟨priorStatus, [(0, [1])], none⟩).modelTable = none :=
  ⟨(c3_reset_amended false ⟨priorStatus, [(0, [1])], none⟩).1,
   (c3_reset_amended false ⟨priorStatus, [(0, [1])], none⟩).2.2.2 rfl⟩

/-! ### C10: verifyModel after an import -/

lemma reach_modelTable_none : ∀ {s : AppState}, Reach s → s.modelTable = none := by
  intro s h
  induction h with
  | init => rfl
  | importStep env file h ih => simpa [appImport] using ih
  | resetStep b h ih => cases b <;> simp [resetModel, deleteModel, ih]
  | setStatus st2 h ih => simpa using ih

/-- C10: after any import completed through `importModel` from a reachable
state, `verifyModel` returns false — the pipeline never writes the
single-row model table (`storeModel` is never invoked), so `getModel`
yields nothing and the sha256 comparison is never reached. -/
theorem c10_verify_after_import_false (env : Env) (gthrows : Bool) (s : AppState)
    (file : SFile) (hreach : Reach s)
    (hdone : (importModel env s.modelStatus s.chunkTable file).outcome = Outcome.completed) :
    appVerify gthrows (appImport env s file).1 = false := by
  have htbl : (appImport env s file).1.modelTable = none := by
    show s.modelTable = none
    exact reach_modelTable_none hreach
  unfold appVerify verifyModel getModel
  rw [htbl]
  cases gthrows <;> (split <;> rfl)

/-- Witness for C10: a completed import from the initial state. -/
theorem c10_verify_after_import_false_witness :
    appVerify false (appImport okEnv ⟨initialModelStatus, [], none⟩ bigFile).1 = false :=
  c10_verify_after_import_false okEnv false ⟨initialModelStatus, [], none⟩ bigFile
    Reach.init (by
      rw [show (⟨initialModelStatus, [], none⟩ : AppState).modelStatus = initialModelStatus
          from rfl,
        show (⟨initialModelStatus, [], none⟩ : AppState).chunkTable = ([] : ChunkStore)
          from rfl,
        importModel_success okEnv initialModelStatus [] bigFile bigFile_ext
          bigFile_min bigFile_max okEnv_quota rfl (fun _ => rfl) rfl])

/-- Witness for C8: a throwing API, and a reporting API with 3 GiB free. -/
theorem c8_quota_fail_closed_witness :
    checkStorageQuota .throws = ⟨false, 0, 0⟩ ∧
      2 * 1024 * 1024 * 1024 <
        (checkStorageQuota (.reports (some 0) (some (3 * 1024 * 1024 * 1024)))).quota -
          (checkStorageQuota (.reports (some 0) (some (3 * 1024 * 1024 * 1024)))).usage :=
  ⟨(c8_quota_fail_closed .throws).1 (Or.inr rfl),
   (c8_quota_fail_closed (.reports (some 0) (some (3 * 1024 * 1024 * 1024)))).2 (by decide)⟩

end Clarity
